import Mathlib

/-!
Multi-robot segment controller node.

A shallow embedding of `tuw_multi_robot_ctrl/src/multi_segment_controller_node.cpp`:
the constructor of `MultiSegmentControllerNode` and its three callbacks
`subOdomCb`, `subPathCb` and `subCtrlCb`.

Modelling conventions.

* Real-valued quantities (`float`/`double` fields) are rationals; rounding between
  floating-point widths is not part of the model.
* `std::string` is `String`, `std::vector` is `List`; `v[i]` outside the bounds of `v`
  has no defined behaviour and makes a callback return `none`.
* The class `SegmentController` is declared outside this translation unit.  Its methods
  enter as the fields of `SegmentControllerOps`; the callbacks are parametric in them.
  `recorder` is an instance that stores the calls a controller received.
* Outbound messages are appended to the field `published` of the node, each with the
  topic it was published on.
-/

namespace velocity_controller

/-! ## Data model -/

/-- The enumerators handed to `SegmentController::setState`. -/
inductive state where
  | run
  | stop
  | step
deriving DecidableEq, Repr

/-- A precondition of a path point: robot `robot` has done `stepCondition` steps. -/
structure PathPrecondition where
  robot : Int
  stepCondition : Int
deriving DecidableEq, Repr

/-- A point of a controller path. -/
structure PathPoint where
  x : ℚ
  y : ℚ
  theta : ℚ
  precondition : List PathPrecondition
deriving DecidableEq

/-- The message `geometry_msgs::Point`. -/
structure Point where
  x : ℚ
  y : ℚ
  z : ℚ
deriving DecidableEq

/-- The message `geometry_msgs::Quaternion`. -/
structure Quaternion where
  x : ℚ
  y : ℚ
  z : ℚ
  w : ℚ
deriving DecidableEq

/-- The message `geometry_msgs::Vector3`; a fresh one is zero. -/
structure Vector3 where
  x : ℚ := 0
  y : ℚ := 0
  z : ℚ := 0
deriving DecidableEq

/-- The message `geometry_msgs::Twist`. -/
structure Twist where
  linear : Vector3 := {}
  angular : Vector3 := {}
deriving DecidableEq

/-- The part of `nav_msgs::Odometry` read by `subOdomCb`: `pose.pose`. -/
structure Odometry where
  position : Point
  orientation : Quaternion
deriving DecidableEq

/-- The message `tuw_multi_robot_msgs::PathPrecondition`. -/
structure MsgPathPrecondition where
  robotId : Int
  stepCondition : Int
deriving DecidableEq

/-- The part of `tuw_multi_robot_msgs::PathSegment` read by `subPathCb`
(the field `end` is spelled `end_`). -/
structure PathSegment where
  end_ : Point
  preconditions : List MsgPathPrecondition
deriving DecidableEq

/-- The message `tuw_multi_robot_msgs::SegmentPath`. -/
structure SegmentPath where
  poses : List PathSegment
deriving DecidableEq

/-- A `ros::Time`: seconds and nanoseconds. -/
structure Time where
  sec : Nat
  nsec : Nat
deriving DecidableEq

/-- A `ros::Duration`: seconds and nanoseconds, normalised so that `0 ≤ nsec < 10^9`. -/
structure Duration where
  sec : Int
  nsec : Int
deriving DecidableEq

/-- Nanoseconds since the epoch. -/
def Time.toNSec (t : Time) : Int := (t.sec : Int) * 1000000000 + (t.nsec : Int)

/-- The operator `ros::Time - ros::Time`. -/
def Time.sub (a b : Time) : Duration :=
  let ns := a.toNSec - b.toNSec
  { sec := ns / 1000000000, nsec := ns % 1000000000 }

/-- The preprocessor definition `NSEC_2_SECS(A) ((float)A/1000000000.0)`. -/
def NSEC_2_SECS (A : Int) : ℚ := (A : ℚ) / 1000000000

/-! ## The segment controller interface -/

/-- The methods of `SegmentController` that the node calls, on a controller state `σ`.
`init` is the default-constructed controller; `getSpeed` and `getCount` only read. -/
structure SegmentControllerOps (σ : Type) where
  init : σ
  setSpeedParams : ℚ → ℚ → σ → σ
  setPID : ℚ → ℚ → ℚ → σ → σ
  setGoalRadius : ℚ → σ → σ
  setPath : List PathPoint → σ → σ
  setState : state → σ → σ
  update : PathPoint → ℚ → σ → σ
  updatePrecondition : PathPrecondition → σ → σ
  getSpeed : σ → ℚ × ℚ
  getCount : σ → Int

/-- A call received by a controller. -/
inductive Call where
  | setSpeedParams (max_v max_w : ℚ)
  | setPID (Kp Ki Kd : ℚ)
  | setGoalRadius (r : ℚ)
  | setPath (path : List PathPoint)
  | setState (s : state)
  | update (pt : PathPoint) (delta_t : ℚ)
  | updatePrecondition (pc : PathPrecondition)
deriving DecidableEq

/-- Number of `update` calls in a call log. -/
def countUpdates (log : List Call) : Int :=
  log.foldl (fun n c => match c with
    | Call.update _ _ => n + 1
    | _ => n) 0

/-- Time step and heading of the last `update` call in a call log, `(0, 0)` without one. -/
def lastUpdate (log : List Call) : ℚ × ℚ :=
  log.foldl (fun acc c => match c with
    | Call.update pt dt => (dt, pt.theta)
    | _ => acc) (0, 0)

/-- The step count that the last `updatePrecondition` call of a log gave for robot `r`,
`0` without such a call. -/
def notifiedCount (log : List Call) (r : Int) : Int :=
  log.foldl (fun acc c => match c with
    | Call.updatePrecondition pc => if pc.robot = r then pc.stepCondition else acc
    | _ => acc) 0

/-- The recording controller: its state is the list of calls it received, oldest first.
It reports the number of `update` calls as its count and the time step and heading of the
last `update` as its speed. -/
def recorder : SegmentControllerOps (List Call) where
  init := []
  setSpeedParams v w log := log ++ [Call.setSpeedParams v w]
  setPID p i d log := log ++ [Call.setPID p i d]
  setGoalRadius r log := log ++ [Call.setGoalRadius r]
  setPath path log := log ++ [Call.setPath path]
  setState s log := log ++ [Call.setState s]
  update pt dt log := log ++ [Call.update pt dt]
  updatePrecondition pc log := log ++ [Call.updatePrecondition pc]
  getSpeed log := lastUpdate log
  getCount log := countUpdates log

/-! ## The node -/

/-- A `ros::Publisher`: `none` is a default-constructed handle, `some t` one advertised on
topic `t`. -/
abbrev Publisher := Option String

/-- A member function bound to a robot index with `boost::bind`. -/
inductive Callback where
  | subOdomCb (i : Nat)
  | subPathCb (i : Nat)
  | subCtrlCb (i : Nat)
deriving DecidableEq

/-- The robot index bound into a callback. -/
def Callback.index : Callback → Nat
  | Callback.subOdomCb i => i
  | Callback.subPathCb i => i
  | Callback.subCtrlCb i => i

/-- A subscription made with `n.subscribe`: its topic and its callback. -/
structure Subscription where
  topic : String
  callback : Callback
deriving DecidableEq

/-- A `ros::Subscriber`: `none` is a default-constructed handle. -/
abbrev Subscriber := Option Subscription

/-- The members of `MultiSegmentControllerNode`, and the messages it has published. -/
structure MultiSegmentControllerNode (σ : Type) where
  robot_names_ : List String
  controller : List σ
  pubCmdVel_ : List Publisher
  subCtrl_ : List Subscriber
  subOdom_ : List Subscriber
  subPath_ : List Subscriber
  topic_odom_ : String
  topic_cmdVel_ : String
  topic_path_ : String
  topic_ctrl_ : String
  max_vel_v_ : ℚ
  max_vel_w_ : ℚ
  goal_r_ : ℚ
  Kp_val_ : ℚ
  Ki_val_ : ℚ
  Kd_val_ : ℚ
  last_update_ : Time
  published : List (String × Twist)

/-- The call `Publisher::publish`: a message on the topic of the handle; a handle that was
never advertised publishes nothing. -/
def publish (p : Publisher) (msg : Twist) (out : List (String × Twist)) :
    List (String × Twist) :=
  match p with
  | none => out
  | some t => out ++ [(t, msg)]

/-! ## Callbacks -/

/-- The callback `subOdomCb`. `yawOf` is the yaw that `tf::Matrix3x3::getRPY` extracts from
the orientation and `now` the value of `ros::Time::now()`. -/
def subOdomCb {σ : Type} (C : SegmentControllerOps σ) (yawOf : Quaternion → ℚ) (now : Time)
    (self : MultiSegmentControllerNode σ) (odom : Odometry) (_topic : Nat) :
    Option (MultiSegmentControllerNode σ) :=
  let pt : PathPoint :=
    { x := odom.position.x, y := odom.position.y, theta := yawOf odom.orientation,
      precondition := [] }
  let time := now
  let d := Time.sub time self.last_update_
  let delta_t : ℚ := (d.sec : ℚ) + NSEC_2_SECS d.nsec
  match self.controller[_topic]? with
  | none => none
  | some c =>
    let c1 := C.update pt delta_t c
    let vw := C.getSpeed c1
    let msg : Twist := { linear := { x := vw.1 }, angular := { z := vw.2 } }
    match self.pubCmdVel_[_topic]? with
    | none => none
    | some p =>
      let pc : PathPrecondition := { robot := (_topic : Int), stepCondition := C.getCount c1 }
      some { self with
        controller := (self.controller.set _topic c1).map (C.updatePrecondition pc)
        published := publish p msg self.published }

/-- The conversion of one message segment into a path point, the body of the outer loop of
`subPathCb`. -/
def toPathPoint (seg : PathSegment) : PathPoint :=
  { x := seg.end_.x, y := seg.end_.y, theta := 0,
    precondition := seg.preconditions.map fun pc =>
      { robot := pc.robotId, stepCondition := pc.stepCondition } }

/-- The callback `subPathCb`. -/
def subPathCb {σ : Type} (C : SegmentControllerOps σ) (self : MultiSegmentControllerNode σ)
    (path : SegmentPath) (_topic : Nat) : Option (MultiSegmentControllerNode σ) :=
  if path.poses.length = 0 then some self
  else
    let localPath : List PathPoint := path.poses.map toPathPoint
    match self.controller[_topic]? with
    | none => none
    | some c => some { self with controller := self.controller.set _topic (C.setPath localPath c) }

/-- The callback `subCtrlCb`. -/
def subCtrlCb {σ : Type} (C : SegmentControllerOps σ) (self : MultiSegmentControllerNode σ)
    (s : String) (_topic : Nat) : Option (MultiSegmentControllerNode σ) :=
  match self.controller[_topic]? with
  | none => none
  | some c =>
    let c1 :=
      if s = "run" then C.setState state.run c
      else if s = "stop" then C.setState state.stop c
      else if s = "step" then C.setState state.step c
      else C.setState state.run c
    some { self with controller := self.controller.set _topic c1 }

/-! ## Construction -/

/-- The parameters that the constructor looks up; `none` is a parameter that is not set. -/
structure Params where
  robot_names : Option (List String) := none
  robot_names_str : Option String := none
  odom_topic : Option String := none
  cmd_vel_topic : Option String := none
  path_topic : Option String := none
  max_v : Option ℚ := none
  max_w : Option ℚ := none
  goal_radius : Option ℚ := none
  Kp : Option ℚ := none
  Ki : Option ℚ := none
  Kd : Option ℚ := none
  topic_control : Option String := none

/-- The call `std::getline(stream, result, delim)` on the unread characters of a stream:
`none` when nothing is left to read (the stream fails), otherwise the characters in front
of the first delimiter together with the characters left unread behind it. -/
def getline (delim : Char) (stream : List Char) : Option (List Char × List Char) :=
  match stream with
  | [] => none
  | _ :: _ =>
    some (stream.takeWhile (fun c => c != delim), (stream.dropWhile (fun c => c != delim)).tail)

/-- The loop `while(std::getline(stringStr, result, ',')) robot_names_.push_back(result);`
run for at most `fuel` iterations. -/
def readNamesLoop : Nat → List Char → List String → List String
  | 0, _, robot_names_ => robot_names_
  | fuel + 1, stream, robot_names_ =>
    match getline ',' stream with
    | none => robot_names_
    | some (result, rest) => readNamesLoop fuel rest (robot_names_ ++ [String.mk result])

/-- The robot names read from `robot_names_str`: the erase-remove of the spaces, then the
`getline` loop on the remaining characters, started from the cleared name list. -/
def parseRobotNames (robot_names_string : String) : List String :=
  let erased := robot_names_string.data.filter (fun c => c != ' ')
  readNamesLoop (erased.length + 1) erased []

/-- The body of the constructor's last loop at index `i`: advertise the command topic of
robot `i` and subscribe to its odometry, path and control topics. -/
def advertiseStep {σ : Type} (self : MultiSegmentControllerNode σ) (i : Nat) :
    MultiSegmentControllerNode σ :=
  let name := self.robot_names_.getD i ""
  { self with
    pubCmdVel_ := self.pubCmdVel_.set i (some (name ++ "/" ++ self.topic_cmdVel_))
    subOdom_ := self.subOdom_.set i
      (some { topic := name ++ "/" ++ self.topic_odom_, callback := Callback.subOdomCb i })
    subPath_ := self.subPath_.set i
      (some { topic := name ++ "/" ++ self.topic_path_, callback := Callback.subPathCb i })
    subCtrl_ := self.subCtrl_.set i
      (some { topic := name ++ "/" ++ self.topic_ctrl_, callback := Callback.subCtrlCb i }) }

/-- The constructor `MultiSegmentControllerNode::MultiSegmentControllerNode`.  The call
`param("robot_names", robot_names_, std::vector<std::string>())` overwrites the initial
name list with the parameter, or with the empty list when the parameter is not set;
`getParam` leaves the default in place when the parameter is not set.  The member
`last_update_` is not initialised by the constructor and starts as the zero time. -/
def MultiSegmentControllerNode.new {σ : Type} (C : SegmentControllerOps σ) (P : Params) :
    MultiSegmentControllerNode σ :=
  let robot_names_0 : List String := P.robot_names.getD []
  let robot_names_string : String := P.robot_names_str.getD ""
  let robot_names_ : List String :=
    if robot_names_string.length > 0 then parseRobotNames robot_names_string
    else robot_names_0
  let max_vel_v_ : ℚ := P.max_v.getD 0.8
  let max_vel_w_ : ℚ := P.max_w.getD 1.0
  let goal_r_ : ℚ := P.goal_radius.getD 0.2
  let Kp_val_ : ℚ := P.Kp.getD 5.0
  let Ki_val_ : ℚ := P.Ki.getD 0.0
  let Kd_val_ : ℚ := P.Kd.getD 1.0
  let resized : List σ := List.replicate robot_names_.length C.init
  let configured : List σ := resized.map fun ctrl =>
    C.setGoalRadius goal_r_ (C.setPID Kp_val_ Ki_val_ Kd_val_
      (C.setSpeedParams max_vel_v_ max_vel_w_ ctrl))
  let self : MultiSegmentControllerNode σ :=
    { robot_names_ := robot_names_
      controller := configured
      pubCmdVel_ := List.replicate robot_names_.length none
      subCtrl_ := List.replicate robot_names_.length none
      subOdom_ := List.replicate robot_names_.length none
      subPath_ := List.replicate robot_names_.length none
      topic_odom_ := P.odom_topic.getD "odom"
      topic_cmdVel_ := P.cmd_vel_topic.getD "cmd_vel"
      topic_path_ := P.path_topic.getD "seg_path"
      topic_ctrl_ := P.topic_control.getD "/ctrl"
      max_vel_v_ := max_vel_v_
      max_vel_w_ := max_vel_w_
      goal_r_ := goal_r_
      Kp_val_ := Kp_val_
      Ki_val_ := Ki_val_
      Kd_val_ := Kd_val_
      last_update_ := { sec := 0, nsec := 0 }
      published := [] }
  (List.range robot_names_.length).foldl advertiseStep self

/-! ## Reference definitions for the robot name list -/

/-- The fields of a comma-separated string, as the specification words it: split on `','`,
where a trailing comma adds no empty field and the empty string has no field. -/
def splitFields (s : List Char) : List (List Char) :=
  let fs := s.splitOn ','
  if fs.getLast? = some [] then fs.dropLast else fs

/-- The robot name list as the specification words it: delete every space, then take the
comma-separated fields. -/
def namesOfString (s : String) : List String :=
  (splitFields (s.data.filter (fun c => c != ' '))).map String.mk

/-- A node of two robots with recording controllers, built from the name string "r0, r1". -/
def twoRobots : MultiSegmentControllerNode (List Call) :=
  MultiSegmentControllerNode.new recorder { robot_names_str := some "r0, r1" }

/-- A node of two robots registered under the same name, built from the name list
`robot0, robot0`. -/
def dupRobots : MultiSegmentControllerNode (List Call) :=
  MultiSegmentControllerNode.new recorder { robot_names := some ["robot0", "robot0"] }

/-- A path of two segments, the first with one precondition. -/
def twoSegments : SegmentPath :=
  { poses := [{ end_ := ⟨1, 2, 0⟩, preconditions := [⟨0, 3⟩] },
              { end_ := ⟨4, 5, 0⟩, preconditions := [] }] }

/-- A pose sample at `(3, 4)`. -/
def samplePose : Odometry :=
  { position := ⟨3, 4, 0⟩, orientation := ⟨0, 0, 7, 1⟩ }

/-- A stand-in for the yaw extraction, used to run the callbacks on concrete samples. -/
def yawStub (q : Quaternion) : ℚ := q.z

/-! ## The event loop -/

/-- A message that `ros::spinOnce` hands to the callback bound to robot index `i`; for a
pose sample `now` is the value of `ros::Time::now()` inside the callback. -/
inductive Event where
  | odom (now : Time) (msg : Odometry) (i : Nat)
  | path (msg : SegmentPath) (i : Nat)
  | ctrl (msg : String) (i : Nat)
deriving DecidableEq

/-- The callback that an event runs. -/
def dispatch {σ : Type} (C : SegmentControllerOps σ) (yawOf : Quaternion → ℚ)
    (self : MultiSegmentControllerNode σ) : Event → Option (MultiSegmentControllerNode σ)
  | Event.odom now msg i => subOdomCb C yawOf now self msg i
  | Event.path msg i => subPathCb C self msg i
  | Event.ctrl msg i => subCtrlCb C self msg i

/-- The loop `while(ros::ok()) ros::spinOnce();` on a finite sequence of events: the
callbacks run one after the other. -/
def spin {σ : Type} (C : SegmentControllerOps σ) (yawOf : Quaternion → ℚ) :
    MultiSegmentControllerNode σ → List Event → Option (MultiSegmentControllerNode σ)
  | self, [] => some self
  | self, e :: es => (dispatch C yawOf self e).bind fun st => spin C yawOf st es

/-! ## The wiring invariant -/

/-- The wiring that the constructor sets up and that every callback keeps: one controller,
one publisher and one subscription of each kind per robot name; the handles of robot `i` are
on the topics of its name and its callbacks are bound to `i`. -/
def Wired {σ : Type} (self : MultiSegmentControllerNode σ) : Prop :=
  self.controller.length = self.robot_names_.length ∧
  self.pubCmdVel_ = (List.range self.robot_names_.length).map (fun i =>
    some (self.robot_names_.getD i "" ++ "/" ++ self.topic_cmdVel_)) ∧
  self.subOdom_ = (List.range self.robot_names_.length).map (fun i =>
    some { topic := self.robot_names_.getD i "" ++ "/" ++ self.topic_odom_,
           callback := Callback.subOdomCb i }) ∧
  self.subPath_ = (List.range self.robot_names_.length).map (fun i =>
    some { topic := self.robot_names_.getD i "" ++ "/" ++ self.topic_path_,
           callback := Callback.subPathCb i }) ∧
  self.subCtrl_ = (List.range self.robot_names_.length).map (fun i =>
    some { topic := self.robot_names_.getD i "" ++ "/" ++ self.topic_ctrl_,
           callback := Callback.subCtrlCb i })

instance {σ : Type} (self : MultiSegmentControllerNode σ) : Decidable (Wired self) := by
  unfold Wired
  infer_instance

/-- The path point that `subOdomCb` builds from an odometry message. -/
def posePoint (yawOf : Quaternion → ℚ) (odom : Odometry) : PathPoint :=
  { x := odom.position.x, y := odom.position.y, theta := yawOf odom.orientation,
    precondition := [] }

/-- The time step that `subOdomCb` hands to `update` at time `now`. -/
def deltaT (now last_update_ : Time) : ℚ :=
  ((Time.sub now last_update_).sec : ℚ) + NSEC_2_SECS (Time.sub now last_update_).nsec

/-! ## Mode commands -/

/-- The handler `subCtrlCb` in closed form, for a robot index inside the controller list. -/
theorem subCtrlCb_eq {σ : Type} (C : SegmentControllerOps σ)
    (self : MultiSegmentControllerNode σ) (s : String) (i : Nat) (c : σ)
    (hc : self.controller[i]? = some c) :
    subCtrlCb C self s i =
      some { self with controller := (self.controller.set i
        (C.setState (if s = "stop" then state.stop else if s = "step" then state.step
          else state.run) c)) } := by
  by_cases h1 : s = "run"
  · subst h1
    simp [subCtrlCb, hc]
  · by_cases h2 : s = "stop"
    · subst h2
      simp [subCtrlCb, hc]
    · by_cases h3 : s = "step"
      · subst h3
        simp [subCtrlCb, hc]
      · simp [subCtrlCb, hc, h1, h2, h3]

/-- An index with an entry lies inside the list. -/
theorem lt_length_of_getElem? {α : Type} {l : List α} {i : Nat} {a : α}
    (h : l[i]? = some a) : i < l.length := by
  by_contra hge
  rw [List.getElem?_eq_none (Nat.le_of_not_lt hge)] at h
  cases h

/-- C1: for a registered robot `i` the mode command handler applies `setState` once to
controller `i`, with `stop` exactly for the command "stop", `step` exactly for "step" and
`run` for every other string; on the recording controller the log of controller `i` grows
by exactly that one call. -/
theorem subCtrlCb_mode_mapping {σ : Type} (C : SegmentControllerOps σ)
    (self : MultiSegmentControllerNode σ) (s : String) (i : Nat)
    (hi : i < self.controller.length) :
    ∃ m : state,
      subCtrlCb C self s i =
        some { self with controller := self.controller.set i (C.setState m self.controller[i]) } ∧
      (m = state.stop ↔ s = "stop") ∧ (m = state.step ↔ s = "step") ∧
      (m = state.run ↔ (s ≠ "stop" ∧ s ≠ "step")) ∧
      ∀ (rec : MultiSegmentControllerNode (List Call)) (log : List Call),
        rec.controller[i]? = some log →
        ∃ rec1, subCtrlCb recorder rec s i = some rec1 ∧
          rec1.controller[i]? = some (log ++ [Call.setState m]) := by
  refine ⟨if s = "stop" then state.stop else if s = "step" then state.step else state.run,
    subCtrlCb_eq C self s i _ (List.getElem?_eq_getElem hi), ?_, ?_, ?_, ?_⟩
  · by_cases h2 : s = "stop"
    · simp [h2]
    · by_cases h3 : s = "step" <;> simp [h2, h3]
  · by_cases h2 : s = "stop"
    · subst h2
      decide
    · by_cases h3 : s = "step" <;> simp [h2, h3]
  · by_cases h2 : s = "stop"
    · simp [h2]
    · by_cases h3 : s = "step" <;> simp [h2, h3]
  · intro rec log hlog
    refine ⟨_, subCtrlCb_eq recorder rec s i log hlog, ?_⟩
    simp only [List.getElem?_set_self (lt_length_of_getElem? hlog)]
    rfl

/-- The witness of C1: the command "stop" for robot 1 of `twoRobots`; the commands "Stop",
" stop" and "" give `run`. -/
theorem subCtrlCb_mode_mapping_witness :
    1 < twoRobots.controller.length ∧
    (∃ m : state,
      subCtrlCb recorder twoRobots "stop" 1 =
        some { twoRobots with controller := (twoRobots.controller.set 1
          (recorder.setState m (twoRobots.controller.get ⟨1, by decide⟩))) } ∧
      (m = state.stop ↔ "stop" = "stop") ∧ (m = state.step ↔ "stop" = "step") ∧
      (m = state.run ↔ ("stop" ≠ "stop" ∧ "stop" ≠ "step")) ∧
      ∀ (rec : MultiSegmentControllerNode (List Call)) (log : List Call),
        rec.controller[1]? = some log →
        ∃ rec1, subCtrlCb recorder rec "stop" 1 = some rec1 ∧
          rec1.controller[1]? = some (log ++ [Call.setState m])) ∧
    (subCtrlCb recorder twoRobots "stop" 1).map (fun n => n.controller) =
      some [[Call.setSpeedParams 0.8 1.0, Call.setPID 5.0 0.0 1.0, Call.setGoalRadius 0.2],
        [Call.setSpeedParams 0.8 1.0, Call.setPID 5.0 0.0 1.0, Call.setGoalRadius 0.2,
         Call.setState state.stop]] ∧
    (["Stop", " stop", "", "step", "run"].map fun s =>
      (subCtrlCb recorder twoRobots s 1).map fun n => (n.controller.getD 1 []).getLast?) =
      [some (some (Call.setState state.run)), some (some (Call.setState state.run)),
       some (some (Call.setState state.run)), some (some (Call.setState state.step)),
       some (some (Call.setState state.run))] :=
  ⟨by decide, subCtrlCb_mode_mapping recorder twoRobots "stop" 1 (by decide), by rfl, by rfl⟩

/-! ## Path assignments -/

/-- The handler `subPathCb` in closed form for a path with segments. -/
theorem subPathCb_eq {σ : Type} (C : SegmentControllerOps σ)
    (self : MultiSegmentControllerNode σ) (path : SegmentPath) (i : Nat) (c : σ)
    (hne : path.poses ≠ []) (hc : self.controller[i]? = some c) :
    subPathCb C self path i =
      some { self with controller :=
        (self.controller.set i (C.setPath (path.poses.map toPathPoint) c)) } := by
  have hlen : path.poses.length ≠ 0 := fun h => hne (List.length_eq_zero.mp h)
  simp [subPathCb, hlen, hc]

/-- C2: a path assignment with an empty segment list returns the node as it was, for every
robot index: no controller gets a `setPath` call and every controller keeps its state. -/
theorem subPathCb_empty_rejected {σ : Type} (C : SegmentControllerOps σ)
    (self : MultiSegmentControllerNode σ) (i : Nat) :
    subPathCb C self { poses := [] } i = some self := by
  simp [subPathCb]

/-- C3: for a path with segments and a registered robot `i`, `subPathCb` hands controller `i`
a path as long as the segment list whose `k`-th point has the end point of the `k`-th
segment as `x` and `y`, heading `0`, and the preconditions of the segment in their order,
each with the same robot and step condition. -/
theorem subPathCb_path_conversion {σ : Type} (C : SegmentControllerOps σ)
    (self : MultiSegmentControllerNode σ) (path : SegmentPath) (i : Nat)
    (hne : path.poses ≠ []) (hi : i < self.controller.length) :
    ∃ localPath : List PathPoint,
      subPathCb C self path i =
        some { self with controller :=
          (self.controller.set i (C.setPath localPath self.controller[i])) } ∧
      localPath.length = path.poses.length ∧
      ∀ (k : Nat) (hk : k < path.poses.length), ∃ pt : PathPoint,
        localPath[k]? = some pt ∧
        pt.x = path.poses[k].end_.x ∧ pt.y = path.poses[k].end_.y ∧ pt.theta = 0 ∧
        pt.precondition.length = path.poses[k].preconditions.length ∧
        ∀ (j : Nat) (hj : j < path.poses[k].preconditions.length), ∃ p : PathPrecondition,
          pt.precondition[j]? = some p ∧
          p.robot = path.poses[k].preconditions[j].robotId ∧
          p.stepCondition = path.poses[k].preconditions[j].stepCondition := by
  refine ⟨path.poses.map toPathPoint,
    subPathCb_eq C self path i _ hne (List.getElem?_eq_getElem hi), by simp, ?_⟩
  intro k hk
  refine ⟨toPathPoint path.poses[k], by simp [List.getElem?_eq_getElem hk], rfl, rfl, rfl,
    by simp [toPathPoint], ?_⟩
  intro j hj
  exact ⟨{ robot := path.poses[k].preconditions[j].robotId,
           stepCondition := path.poses[k].preconditions[j].stepCondition },
    by simp [toPathPoint, List.getElem?_eq_getElem hj], rfl, rfl⟩

/-- The witness of C3: a two-segment path for robot 1 of `twoRobots`. -/
theorem subPathCb_path_conversion_witness :
    (twoSegments.poses ≠ [] ∧ 1 < twoRobots.controller.length) ∧
    (∃ localPath : List PathPoint,
      subPathCb recorder twoRobots twoSegments 1 =
        some { twoRobots with controller :=
          (twoRobots.controller.set 1 (recorder.setPath localPath
            (twoRobots.controller.get ⟨1, by decide⟩))) } ∧
      localPath.length = twoSegments.poses.length ∧
      ∀ (k : Nat) (hk : k < twoSegments.poses.length), ∃ pt : PathPoint,
        localPath[k]? = some pt ∧
        pt.x = twoSegments.poses[k].end_.x ∧ pt.y = twoSegments.poses[k].end_.y ∧
        pt.theta = 0 ∧
        pt.precondition.length = twoSegments.poses[k].preconditions.length ∧
        ∀ (j : Nat) (hj : j < twoSegments.poses[k].preconditions.length),
          ∃ p : PathPrecondition,
            pt.precondition[j]? = some p ∧
            p.robot = twoSegments.poses[k].preconditions[j].robotId ∧
            p.stepCondition = twoSegments.poses[k].preconditions[j].stepCondition) ∧
    (subPathCb recorder twoRobots twoSegments 1).map (fun n => n.controller) =
      some [[Call.setSpeedParams 0.8 1.0, Call.setPID 5.0 0.0 1.0, Call.setGoalRadius 0.2],
        [Call.setSpeedParams 0.8 1.0, Call.setPID 5.0 0.0 1.0, Call.setGoalRadius 0.2,
         Call.setPath [⟨1, 2, 0, [⟨0, 3⟩]⟩, ⟨4, 5, 0, []⟩]]] :=
  ⟨⟨by decide, by decide⟩,
    subPathCb_path_conversion recorder twoRobots twoSegments 1 (by decide) (by decide),
    by rfl⟩

/-! ## Frame of the command and path handlers -/

/-- C7: a mode command or a path assignment for a registered robot `i` returns a node in
which every controller `j ≠ i` is as before; the controller list keeps its length and the
publishers and subscriptions of all robots stay in place. -/
theorem subCtrlCb_subPathCb_frame {σ : Type} (C : SegmentControllerOps σ)
    (self : MultiSegmentControllerNode σ) (s : String) (path : SegmentPath) (i j : Nat)
    (hi : i < self.controller.length) (hj : j ≠ i) :
    (∃ st, subCtrlCb C self s i = some st ∧ st.controller[j]? = self.controller[j]? ∧
      st.controller.length = self.controller.length ∧ st.pubCmdVel_ = self.pubCmdVel_ ∧
      st.subOdom_ = self.subOdom_ ∧ st.subPath_ = self.subPath_ ∧
      st.subCtrl_ = self.subCtrl_ ∧ st.published = self.published) ∧
    (∃ st, subPathCb C self path i = some st ∧ st.controller[j]? = self.controller[j]? ∧
      st.controller.length = self.controller.length ∧ st.pubCmdVel_ = self.pubCmdVel_ ∧
      st.subOdom_ = self.subOdom_ ∧ st.subPath_ = self.subPath_ ∧
      st.subCtrl_ = self.subCtrl_ ∧ st.published = self.published) := by
  have hget : self.controller[i]? = some self.controller[i] := List.getElem?_eq_getElem hi
  constructor
  · refine ⟨_, subCtrlCb_eq C self s i _ hget, ?_, by simp, rfl, rfl, rfl, rfl, rfl⟩
    simp [List.getElem?_set_ne (Ne.symm hj)]
  · by_cases hne : path.poses = []
    · have hp : path = { poses := [] } := by
        cases path
        simpa using hne
      subst hp
      exact ⟨self, by simp [subPathCb], rfl, rfl, rfl, rfl, rfl, rfl, rfl⟩
    · refine ⟨_, subPathCb_eq C self path i _ hne hget, ?_, by simp, rfl, rfl, rfl, rfl, rfl⟩
      simp [List.getElem?_set_ne (Ne.symm hj)]

/-- The witness of C7: a "stop" command and a two-segment path for robot 1 of `twoRobots`
leave controller 0 as it was. -/
theorem subCtrlCb_subPathCb_frame_witness :
    (1 < twoRobots.controller.length ∧ 0 ≠ 1) ∧
    ((∃ st, subCtrlCb recorder twoRobots "stop" 1 = some st ∧
      st.controller[0]? = twoRobots.controller[0]? ∧
      st.controller.length = twoRobots.controller.length ∧
      st.pubCmdVel_ = twoRobots.pubCmdVel_ ∧
      st.subOdom_ = twoRobots.subOdom_ ∧ st.subPath_ = twoRobots.subPath_ ∧
      st.subCtrl_ = twoRobots.subCtrl_ ∧ st.published = twoRobots.published) ∧
    (∃ st, subPathCb recorder twoRobots twoSegments 1 = some st ∧
      st.controller[0]? = twoRobots.controller[0]? ∧
      st.controller.length = twoRobots.controller.length ∧
      st.pubCmdVel_ = twoRobots.pubCmdVel_ ∧
      st.subOdom_ = twoRobots.subOdom_ ∧ st.subPath_ = twoRobots.subPath_ ∧
      st.subCtrl_ = twoRobots.subCtrl_ ∧ st.published = twoRobots.published)) :=
  ⟨⟨by decide, by decide⟩,
    subCtrlCb_subPathCb_frame recorder twoRobots "stop" twoSegments 1 0 (by decide) (by decide)⟩

/-! ## Pose samples -/

/-- The handler `subOdomCb` in closed form, for a robot index inside the controller list and
the publisher list. -/
theorem subOdomCb_eq {σ : Type} (C : SegmentControllerOps σ) (yawOf : Quaternion → ℚ)
    (now : Time) (self : MultiSegmentControllerNode σ) (odom : Odometry) (i : Nat) (c : σ)
    (p : Publisher) (hc : self.controller[i]? = some c) (hp : self.pubCmdVel_[i]? = some p) :
    subOdomCb C yawOf now self odom i =
      some { self with
        controller := (self.controller.set i
            (C.update (posePoint yawOf odom) (deltaT now self.last_update_) c)).map
          (C.updatePrecondition
            { robot := (i : Int)
              stepCondition := C.getCount
                (C.update (posePoint yawOf odom) (deltaT now self.last_update_) c) })
        published := publish p
          { linear := { x := (C.getSpeed
              (C.update (posePoint yawOf odom) (deltaT now self.last_update_) c)).1 }
            angular := { z := (C.getSpeed
              (C.update (posePoint yawOf odom) (deltaT now self.last_update_) c)).2 } }
          self.published } := by
  simp [subOdomCb, hc, hp, posePoint, deltaT]

/-- The time step of a sample at 10 s in a node that was just constructed. -/
theorem deltaT_twoRobots : deltaT ⟨10, 0⟩ twoRobots.last_update_ = 10 := by
  have hl : twoRobots.last_update_ = ⟨0, 0⟩ := rfl
  rw [hl]
  norm_num [deltaT, Time.sub, Time.toNSec, NSEC_2_SECS]

/-- C4: a pose sample for a registered robot `i` updates controller `i` and then applies
`updatePrecondition` once to every controller, controller `i` included, with the pair
`(i, c)` where `c` is the count of controller `i` read after its update.  Whenever a
notification sets the notified count of the named robot and leaves the own count alone,
every controller's view of robot `i` then equals the count of controller `i`. -/
theorem subOdomCb_notifies_all {σ : Type} (C : SegmentControllerOps σ)
    (yawOf : Quaternion → ℚ) (now : Time) (self : MultiSegmentControllerNode σ)
    (odom : Odometry) (i : Nat) (hi : i < self.controller.length)
    (hp : i < self.pubCmdVel_.length) :
    ∃ st c1, subOdomCb C yawOf now self odom i = some st ∧
      c1 = C.update (posePoint yawOf odom) (deltaT now self.last_update_) self.controller[i] ∧
      st.controller.length = self.controller.length ∧
      st.controller[i]? = some (C.updatePrecondition ⟨i, C.getCount c1⟩ c1) ∧
      (∀ j : Nat, j ≠ i → st.controller[j]? =
        (self.controller[j]?).map (C.updatePrecondition ⟨i, C.getCount c1⟩)) ∧
      (∀ view : σ → Int → Int,
        (∀ pc s, view (C.updatePrecondition pc s) pc.robot = pc.stepCondition) →
        (∀ pc s, C.getCount (C.updatePrecondition pc s) = C.getCount s) →
        ∀ (j : Nat) (cj ci : σ), st.controller[j]? = some cj → st.controller[i]? = some ci →
          view cj (i : Int) = C.getCount ci) := by
  have hget : self.controller[i]? = some self.controller[i] := List.getElem?_eq_getElem hi
  have hpub : self.pubCmdVel_[i]? = some self.pubCmdVel_[i] := List.getElem?_eq_getElem hp
  refine ⟨_, _, subOdomCb_eq C yawOf now self odom i _ _ hget hpub, rfl, by simp, ?_, ?_, ?_⟩
  · simp only [List.getElem?_map, List.getElem?_set_self hi, Option.map_some']
  · intro j hj
    simp only [List.getElem?_map, List.getElem?_set_ne (Ne.symm hj)]
  · intro view hview hcount j cj ci hcj hci
    simp only [List.getElem?_map, List.getElem?_set_self hi, Option.map_some',
      Option.some.injEq] at hci
    simp only [List.getElem?_map, Option.map_eq_some'] at hcj
    obtain ⟨a, -, ha⟩ := hcj
    rw [← ha, ← hci, hcount]
    exact hview ⟨i, _⟩ a

/-- On the recording controller a notification sets the notified count of its robot. -/
theorem recorder_notifiedCount (pc : PathPrecondition) (log : List Call) :
    notifiedCount (recorder.updatePrecondition pc log) pc.robot = pc.stepCondition := by
  simp [recorder, notifiedCount, List.foldl_append]

/-- On the recording controller a notification leaves the count alone. -/
theorem recorder_getCount_updatePrecondition (pc : PathPrecondition) (log : List Call) :
    recorder.getCount (recorder.updatePrecondition pc log) = recorder.getCount log := by
  simp [recorder, countUpdates, List.foldl_append]

/-- The witness of C4: a pose sample for robot 1 of `twoRobots` at time 10 s. -/
theorem subOdomCb_notifies_all_witness :
    (1 < twoRobots.controller.length ∧ 1 < twoRobots.pubCmdVel_.length) ∧
    (∃ st, subOdomCb recorder yawStub ⟨10, 0⟩ twoRobots samplePose 1 = some st ∧
      st.controller.length = twoRobots.controller.length ∧
      ∀ (j : Nat) (cj ci : List Call), st.controller[j]? = some cj →
        st.controller[1]? = some ci → notifiedCount cj 1 = countUpdates ci) ∧
    (subOdomCb recorder yawStub ⟨10, 0⟩ twoRobots samplePose 1).map (fun n => n.controller) =
      some [[Call.setSpeedParams 0.8 1.0, Call.setPID 5.0 0.0 1.0, Call.setGoalRadius 0.2,
         Call.updatePrecondition ⟨1, 1⟩],
        [Call.setSpeedParams 0.8 1.0, Call.setPID 5.0 0.0 1.0, Call.setGoalRadius 0.2,
         Call.update ⟨3, 4, 7, []⟩ 10, Call.updatePrecondition ⟨1, 1⟩]] := by
  refine ⟨⟨by decide, by decide⟩, ?_, ?_⟩
  · obtain ⟨st, c1, hst, -, hlen, -, -, hview⟩ :=
      subOdomCb_notifies_all recorder yawStub ⟨10, 0⟩ twoRobots samplePose 1
        (by decide) (by decide)
    exact ⟨st, hst, hlen, fun j cj ci hcj hci =>
      hview notifiedCount recorder_notifiedCount recorder_getCount_updatePrecondition j cj ci
        hcj hci⟩
  · rw [subOdomCb_eq recorder yawStub ⟨10, 0⟩ twoRobots samplePose 1 _ _
      (List.getElem?_eq_getElem (by decide)) (List.getElem?_eq_getElem (by decide)),
      deltaT_twoRobots]
    rfl

/-! ## Construction: the wiring loop -/

/-- Entry `j` of a list after a run of assignments `l[i] = g i` over the indices `is`. -/
theorem getElem?_foldl_set {α : Type} (g : Nat → α) (is : List Nat) (L : List α) (j : Nat) :
    (is.foldl (fun l i => l.set i (g i)) L)[j]? =
      if j ∈ is ∧ j < L.length then some (g j) else L[j]? := by
  induction is generalizing L with
  | nil => simp
  | cons i is ih =>
    rw [List.foldl_cons, ih]
    by_cases hji : j = i
    · subst hji
      by_cases hlt : j < L.length
      · by_cases hmem : j ∈ is <;> simp [hlt, hmem, List.getElem?_set_self]
      · have hnone : L[j]? = none := List.getElem?_eq_none (Nat.le_of_not_lt hlt)
        simp [hlt, hnone, List.getElem?_set]
    · have hij : i ≠ j := fun h => hji h.symm
      simp [List.getElem?_set_ne hij, hji]

/-- Assigning `l[i] = g i` for `i = 0, …, n - 1` to a list of length `n` gives the list of
the `g i`. -/
theorem foldl_set_range {α : Type} (g : Nat → α) (d : α) (n : Nat) :
    (List.range n).foldl (fun l i => l.set i (g i)) (List.replicate n d) =
      (List.range n).map g := by
  apply List.ext_getElem?
  intro j
  rw [getElem?_foldl_set]
  by_cases hj : j < n
  · simp [hj]
  · have h1 : (List.replicate n d)[j]? = none :=
      List.getElem?_eq_none (by simpa using Nat.le_of_not_lt hj)
    have h2 : (List.range n)[j]? = none :=
      List.getElem?_eq_none (by simpa using Nat.le_of_not_lt hj)
    simp [hj, h1, h2]

/-- The wiring loop only assigns into the four handle lists, each entry from the robot name
and the topic names the node had before the loop. -/
theorem foldl_advertiseStep {σ : Type} (is : List Nat) (self : MultiSegmentControllerNode σ) :
    is.foldl advertiseStep self =
      { self with
        pubCmdVel_ := is.foldl (fun l i => l.set i
          (some (self.robot_names_.getD i "" ++ "/" ++ self.topic_cmdVel_))) self.pubCmdVel_
        subOdom_ := is.foldl (fun l i => l.set i
          (some { topic := self.robot_names_.getD i "" ++ "/" ++ self.topic_odom_,
                  callback := Callback.subOdomCb i })) self.subOdom_
        subPath_ := is.foldl (fun l i => l.set i
          (some { topic := self.robot_names_.getD i "" ++ "/" ++ self.topic_path_,
                  callback := Callback.subPathCb i })) self.subPath_
        subCtrl_ := is.foldl (fun l i => l.set i
          (some { topic := self.robot_names_.getD i "" ++ "/" ++ self.topic_ctrl_,
                  callback := Callback.subCtrlCb i })) self.subCtrl_ } := by
  induction is generalizing self with
  | nil => rfl
  | cons i is ih =>
    rw [List.foldl_cons, ih]
    rfl

/-- The constructor establishes the wiring. -/
theorem new_wired {σ : Type} (C : SegmentControllerOps σ) (P : Params) :
    Wired (MultiSegmentControllerNode.new C P) := by
  unfold MultiSegmentControllerNode.new
  simp only [foldl_advertiseStep]
  refine ⟨by simp, ?_, ?_, ?_, ?_⟩ <;> exact foldl_set_range _ _ _

/-! ## Callbacks keep the wiring -/

/-- The command handler keeps the wiring. -/
theorem subCtrlCb_wired {σ : Type} (C : SegmentControllerOps σ)
    (self st : MultiSegmentControllerNode σ) (s : String) (i : Nat) (hw : Wired self)
    (h : subCtrlCb C self s i = some st) : Wired st := by
  cases hc : self.controller[i]? with
  | none => simp [subCtrlCb, hc] at h
  | some c =>
    rw [subCtrlCb_eq C self s i c hc] at h
    cases h
    obtain ⟨h1, h2⟩ := hw
    exact ⟨by simpa using h1, h2⟩

/-- The path handler keeps the wiring. -/
theorem subPathCb_wired {σ : Type} (C : SegmentControllerOps σ)
    (self st : MultiSegmentControllerNode σ) (path : SegmentPath) (i : Nat) (hw : Wired self)
    (h : subPathCb C self path i = some st) : Wired st := by
  by_cases hne : path.poses = []
  · simp [subPathCb, hne] at h
    subst h
    exact hw
  · cases hc : self.controller[i]? with
    | none =>
      have hlen : path.poses.length ≠ 0 := fun h0 => hne (List.length_eq_zero.mp h0)
      simp [subPathCb, hlen, hc] at h
    | some c =>
      rw [subPathCb_eq C self path i c hne hc] at h
      cases h
      obtain ⟨h1, h2⟩ := hw
      exact ⟨by simpa using h1, h2⟩

/-- The pose handler keeps the wiring. -/
theorem subOdomCb_wired {σ : Type} (C : SegmentControllerOps σ) (yawOf : Quaternion → ℚ)
    (now : Time) (self st : MultiSegmentControllerNode σ) (odom : Odometry) (i : Nat)
    (hw : Wired self) (h : subOdomCb C yawOf now self odom i = some st) : Wired st := by
  cases hc : self.controller[i]? with
  | none => simp [subOdomCb, hc] at h
  | some c =>
    cases hp : self.pubCmdVel_[i]? with
    | none => simp [subOdomCb, hc, hp] at h
    | some p =>
      rw [subOdomCb_eq C yawOf now self odom i c p hc hp] at h
      cases h
      obtain ⟨h1, h2⟩ := hw
      exact ⟨by simpa using h1, h2⟩

/-- Topics built from different robot names differ. -/
theorem topic_ne_of_name_ne (a b t : String) (h : a ≠ b) : a ++ "/" ++ t ≠ b ++ "/" ++ t := by
  intro heq
  apply h
  have hd := congrArg String.data heq
  simp only [String.data_append] at hd
  have hab : a.data = b.data := List.append_cancel_right (List.append_cancel_right hd)
  exact String.ext hab

/-- The publisher of robot `i` in a wired node. -/
theorem wired_pubCmdVel {σ : Type} (self : MultiSegmentControllerNode σ) (hw : Wired self)
    (i : Nat) (hi : i < self.controller.length) :
    self.pubCmdVel_[i]? =
      some (some (self.robot_names_.getD i "" ++ "/" ++ self.topic_cmdVel_)) := by
  obtain ⟨h1, h2, -⟩ := hw
  rw [h1] at hi
  rw [h2]
  simp [hi]

/-- C5, as amended: a pose sample for a registered robot `i` of a wired node appends exactly
one message to the published messages, on the command topic of robot `i`; its linear `x`
and angular `z` are the `v` and `w` that controller `i` reports after the update with the
sample's `x`, `y` and yaw, its other components are zero, and no message is added on the
command topic of a robot registered under another name. -/
theorem subOdomCb_publishes_once {σ : Type} (C : SegmentControllerOps σ)
    (yawOf : Quaternion → ℚ) (now : Time) (self : MultiSegmentControllerNode σ)
    (odom : Odometry) (i : Nat) (hw : Wired self) (hi : i < self.controller.length) :
    ∃ st c1, subOdomCb C yawOf now self odom i = some st ∧
      c1 = C.update
        { x := odom.position.x, y := odom.position.y, theta := yawOf odom.orientation,
          precondition := [] }
        (deltaT now self.last_update_) self.controller[i] ∧
      st.published = self.published ++
        [(self.robot_names_.getD i "" ++ "/" ++ self.topic_cmdVel_,
          { linear := { x := (C.getSpeed c1).1, y := 0, z := 0 },
            angular := { x := 0, y := 0, z := (C.getSpeed c1).2 } })] ∧
      ∀ j : Nat, self.robot_names_.getD j "" ≠ self.robot_names_.getD i "" →
        ∀ m ∈ st.published, m.1 = self.robot_names_.getD j "" ++ "/" ++ self.topic_cmdVel_ →
          m ∈ self.published := by
  have hget : self.controller[i]? = some self.controller[i] := List.getElem?_eq_getElem hi
  refine ⟨_, _, subOdomCb_eq C yawOf now self odom i _ _ hget (wired_pubCmdVel self hw i hi),
    rfl, rfl, ?_⟩
  intro j hj m hm hmt
  simp only [publish, List.mem_append, List.mem_singleton] at hm
  rcases hm with hm | hm
  · exact hm
  · exfalso
    rw [hm] at hmt
    exact topic_ne_of_name_ne _ _ _ hj hmt.symm

/-- C5, as stated, fails: in the node built from the name list `robot0, robot0` the
publishers of robot 0 and robot 1 are both on "robot0/cmd_vel", so the message of a pose
sample for robot 1 is a new message on the command topic of robot 0. -/
theorem subOdomCb_duplicate_name_shares_topic :
    dupRobots.pubCmdVel_ = [some "robot0/cmd_vel", some "robot0/cmd_vel"] ∧
    ¬ (∀ j : Nat, j ≠ 1 → ∀ t : String, dupRobots.pubCmdVel_[j]? = some (some t) →
        ∀ st, subOdomCb recorder yawStub ⟨10, 0⟩ dupRobots samplePose 1 = some st →
          ∀ m ∈ st.published, m.1 = t → m ∈ dupRobots.published) := by
  refine ⟨by decide, ?_⟩
  intro h
  have e := subOdomCb_eq recorder yawStub ⟨10, 0⟩ dupRobots samplePose 1 _ _
    (List.getElem?_eq_getElem (by decide)) (List.getElem?_eq_getElem (by decide))
  have hpub : dupRobots.pubCmdVel_[1]? = some (some "robot0/cmd_vel") := by decide
  have hget : dupRobots.pubCmdVel_[1]? = some (dupRobots.pubCmdVel_.get ⟨1, by decide⟩) :=
    List.getElem?_eq_getElem (by decide)
  have hp : dupRobots.pubCmdVel_.get ⟨1, by decide⟩ = some "robot0/cmd_vel" := by
    rw [hget] at hpub
    exact Option.some.inj hpub
  have hout : dupRobots.published = [] := rfl
  have hm := h 0 (by decide) "robot0/cmd_vel" (by decide) _ e
    ("robot0/cmd_vel", _) (by
      show _ ∈ publish (dupRobots.pubCmdVel_.get ⟨1, by decide⟩) _ dupRobots.published
      rw [hp, hout]
      exact List.mem_singleton.mpr rfl) rfl
  rw [hout] at hm
  exact absurd hm (List.not_mem_nil _)

/-- The witness of C5: a pose sample for robot 1 of `twoRobots` at time 10 s publishes one
message on "r1/cmd_vel". -/
theorem subOdomCb_publishes_once_witness :
    (Wired twoRobots ∧ 1 < twoRobots.controller.length) ∧
    (subOdomCb recorder yawStub ⟨10, 0⟩ twoRobots samplePose 1).map (fun n => n.published) =
      some [("r1/cmd_vel",
        { linear := { x := 10, y := 0, z := 0 }, angular := { x := 0, y := 0, z := 7 } })] := by
  refine ⟨⟨by decide, by decide⟩, ?_⟩
  obtain ⟨st, c1, hst, hc1, hpub, -⟩ :=
    subOdomCb_publishes_once recorder yawStub ⟨10, 0⟩ twoRobots samplePose 1
      (by decide) (by decide)
  rw [hst, Option.map_some', hpub, hc1, deltaT_twoRobots]
  rfl

/-! ## The time step -/

/-- The pose handler leaves `last_update_` as it was. -/
theorem subOdomCb_last_update {σ : Type} (C : SegmentControllerOps σ) (yawOf : Quaternion → ℚ)
    (now : Time) (self st : MultiSegmentControllerNode σ) (odom : Odometry) (i : Nat)
    (h : subOdomCb C yawOf now self odom i = some st) : st.last_update_ = self.last_update_ := by
  cases hc : self.controller[i]? with
  | none => simp [subOdomCb, hc] at h
  | some c =>
    cases hp : self.pubCmdVel_[i]? with
    | none => simp [subOdomCb, hc, hp] at h
    | some p =>
      rw [subOdomCb_eq C yawOf now self odom i c p hc hp] at h
      cases h
      rfl

/-- The time step in closed form: the nanoseconds between the two times, in seconds. -/
theorem deltaT_eq (now last : Time) :
    deltaT now last = ((now.toNSec - last.toNSec : Int) : ℚ) / 1000000000 := by
  unfold deltaT NSEC_2_SECS Time.sub
  simp only
  have h := Int.ediv_add_emod (now.toNSec - last.toNSec) 1000000000
  have hq : ((now.toNSec - last.toNSec : Int) : ℚ) =
      (1000000000 : ℚ) * (((now.toNSec - last.toNSec) / 1000000000 : Int) : ℚ) +
        (((now.toNSec - last.toNSec) % 1000000000 : Int) : ℚ) := by
    exact_mod_cast h.symm
  rw [hq]
  field_simp
  ring

/-- The command and path handlers leave `last_update_` as it was. -/
theorem subCtrlCb_subPathCb_last_update {σ : Type} (C : SegmentControllerOps σ)
    (self st : MultiSegmentControllerNode σ) (s : String) (path : SegmentPath) (i : Nat) :
    (subCtrlCb C self s i = some st → st.last_update_ = self.last_update_) ∧
    (subPathCb C self path i = some st → st.last_update_ = self.last_update_) := by
  constructor
  · intro h
    cases hc : self.controller[i]? with
    | none => simp [subCtrlCb, hc] at h
    | some c =>
      rw [subCtrlCb_eq C self s i c hc] at h
      cases h
      rfl
  · intro h
    by_cases hne : path.poses = []
    · simp [subPathCb, hne] at h
      subst h
      rfl
    · cases hc : self.controller[i]? with
      | none =>
        have hlen : path.poses.length ≠ 0 := fun h0 => hne (List.length_eq_zero.mp h0)
        simp [subPathCb, hlen, hc] at h
      | some c =>
        rw [subPathCb_eq C self path i c hne hc] at h
        cases h
        rfl

/-- No sequence of events changes `last_update_`, and every sequence keeps the wiring. -/
theorem spin_last_update {σ : Type} (C : SegmentControllerOps σ) (yawOf : Quaternion → ℚ)
    (es : List Event) (self st : MultiSegmentControllerNode σ)
    (h : spin C yawOf self es = some st) :
    st.last_update_ = self.last_update_ ∧ (Wired self → Wired st) := by
  induction es generalizing self with
  | nil =>
    simp only [spin, Option.some.injEq] at h
    subst h
    exact ⟨rfl, id⟩
  | cons e es ih =>
    simp only [spin, Option.bind_eq_some] at h
    obtain ⟨mid, hmid, hrest⟩ := h
    obtain ⟨h1, h2⟩ := ih mid hrest
    cases e with
    | odom now msg i =>
      exact ⟨h1.trans (subOdomCb_last_update C yawOf now self mid msg i hmid),
        fun hw => h2 (subOdomCb_wired C yawOf now self mid msg i hw hmid)⟩
    | path msg i =>
      exact ⟨h1.trans ((subCtrlCb_subPathCb_last_update C self mid "" msg i).2 hmid),
        fun hw => h2 (subPathCb_wired C self mid msg i hw hmid)⟩
    | ctrl msg i =>
      exact ⟨h1.trans ((subCtrlCb_subPathCb_last_update C self mid msg ⟨[]⟩ i).1 hmid),
        fun hw => h2 (subCtrlCb_wired C self mid msg i hw hmid)⟩

/-- After construction and any sequence of events, a pose sample processed at time `now`
hands `update` the time since the epoch. -/
theorem deltaT_after_spin {σ : Type} (C : SegmentControllerOps σ) (yawOf : Quaternion → ℚ)
    (P : Params) (es : List Event) (st : MultiSegmentControllerNode σ) (now : Time)
    (h : spin C yawOf (MultiSegmentControllerNode.new C P) es = some st) :
    deltaT now st.last_update_ = (now.toNSec : ℚ) / 1000000000 := by
  have hl : (MultiSegmentControllerNode.new C P).last_update_ = ⟨0, 0⟩ := by
    unfold MultiSegmentControllerNode.new
    simp only [foldl_advertiseStep]
  rw [(spin_last_update C yawOf es _ st h).1, hl, deltaT_eq]
  simp [Time.toNSec]

/-- C8: two pose samples for robot 0 of `twoRobots`, processed at 10 s and at 11 s.  The
first one leaves `last_update_` where the constructor put it, and the second one hands
`update` the time step 11, the time since the epoch, although the samples are 1 s apart. -/
theorem subOdomCb_delta_t_not_elapsed :
    ∃ st1 st2, subOdomCb recorder yawStub ⟨10, 0⟩ twoRobots samplePose 0 = some st1 ∧
      subOdomCb recorder yawStub ⟨11, 0⟩ st1 samplePose 0 = some st2 ∧
      st1.last_update_ = twoRobots.last_update_ ∧ deltaT ⟨11, 0⟩ ⟨10, 0⟩ = 1 ∧
      st2.controller[0]? = some [Call.setSpeedParams 0.8 1.0, Call.setPID 5.0 0.0 1.0,
        Call.setGoalRadius 0.2,
        Call.update ⟨3, 4, 7, []⟩ 10, Call.updatePrecondition ⟨0, 1⟩,
        Call.update ⟨3, 4, 7, []⟩ 11, Call.updatePrecondition ⟨0, 2⟩] := by
  have h10 : deltaT ⟨10, 0⟩ ⟨0, 0⟩ = 10 := by
    norm_num [deltaT, Time.sub, Time.toNSec, NSEC_2_SECS]
  have h11 : deltaT ⟨11, 0⟩ ⟨0, 0⟩ = 11 := by
    norm_num [deltaT, Time.sub, Time.toNSec, NSEC_2_SECS]
  have hl : twoRobots.last_update_ = ⟨0, 0⟩ := rfl
  have e1 := subOdomCb_eq recorder yawStub ⟨10, 0⟩ twoRobots samplePose 0 _ _
    (List.getElem?_eq_getElem (by decide)) (List.getElem?_eq_getElem (by decide))
  rw [hl, h10] at e1
  obtain ⟨st1, hst1, hc1, hp1, hl1⟩ : ∃ st1 : MultiSegmentControllerNode (List Call),
      subOdomCb recorder yawStub ⟨10, 0⟩ twoRobots samplePose 0 = some st1 ∧
      st1.controller[0]? = some [Call.setSpeedParams 0.8 1.0, Call.setPID 5.0 0.0 1.0,
        Call.setGoalRadius 0.2,
        Call.update ⟨3, 4, 7, []⟩ 10, Call.updatePrecondition ⟨0, 1⟩] ∧
      st1.pubCmdVel_[0]? = some (some "r0/cmd_vel") ∧ st1.last_update_ = ⟨0, 0⟩ :=
    ⟨_, e1, by rfl, by rfl, rfl⟩
  have e2 := subOdomCb_eq recorder yawStub ⟨11, 0⟩ st1 samplePose 0 _ _ hc1 hp1
  rw [hl1, h11] at e2
  refine ⟨st1, _, hst1, e2, by rw [hl1, hl],
    by norm_num [deltaT, Time.sub, Time.toNSec, NSEC_2_SECS], ?_⟩
  have hlt : 0 < st1.controller.length := lt_length_of_getElem? hc1
  simp only [List.getElem?_map, List.getElem?_set_self hlt, Option.map_some']
  rfl

/-! ## Construction: controllers -/

/-- The robot name list after construction. -/
theorem new_robot_names_ {σ : Type} (C : SegmentControllerOps σ) (P : Params) :
    (MultiSegmentControllerNode.new C P).robot_names_ =
      if (P.robot_names_str.getD "").length > 0 then parseRobotNames (P.robot_names_str.getD "")
      else P.robot_names.getD [] := by
  unfold MultiSegmentControllerNode.new
  simp only [foldl_advertiseStep]

/-- The controller list after construction: one configured controller per robot name. -/
theorem new_controller {σ : Type} (C : SegmentControllerOps σ) (P : Params) :
    (MultiSegmentControllerNode.new C P).controller =
      List.replicate (MultiSegmentControllerNode.new C P).robot_names_.length
        (C.setGoalRadius (P.goal_radius.getD 0.2)
          (C.setPID (P.Kp.getD 5.0) (P.Ki.getD 0.0) (P.Kd.getD 1.0)
            (C.setSpeedParams (P.max_v.getD 0.8) (P.max_w.getD 1.0) C.init))) := by
  unfold MultiSegmentControllerNode.new
  simp only [foldl_advertiseStep, List.map_replicate]

/-- C9: after construction every controller is the default-constructed controller with
`setSpeedParams`, `setPID` and `setGoalRadius` applied once each, on the limits, gains and
goal radius stored in the node; these are the values of the parameters `max_v`, `max_w`,
`goal_radius`, `Kp`, `Ki`, `Kd`, or 0.8, 1.0, 0.2, 5.0, 0.0, 1.0 for a parameter that is not
set.  There is one such controller per robot name. -/
theorem new_controllers_configured {σ : Type} (C : SegmentControllerOps σ) (P : Params) :
    (∀ c ∈ (MultiSegmentControllerNode.new C P).controller,
      c = C.setGoalRadius (MultiSegmentControllerNode.new C P).goal_r_
        (C.setPID (MultiSegmentControllerNode.new C P).Kp_val_
          (MultiSegmentControllerNode.new C P).Ki_val_
          (MultiSegmentControllerNode.new C P).Kd_val_
          (C.setSpeedParams (MultiSegmentControllerNode.new C P).max_vel_v_
            (MultiSegmentControllerNode.new C P).max_vel_w_ C.init))) ∧
    (MultiSegmentControllerNode.new C P).controller.length =
      (MultiSegmentControllerNode.new C P).robot_names_.length ∧
    (MultiSegmentControllerNode.new C P).max_vel_v_ = P.max_v.getD 0.8 ∧
    (MultiSegmentControllerNode.new C P).max_vel_w_ = P.max_w.getD 1.0 ∧
    (MultiSegmentControllerNode.new C P).goal_r_ = P.goal_radius.getD 0.2 ∧
    (MultiSegmentControllerNode.new C P).Kp_val_ = P.Kp.getD 5.0 ∧
    (MultiSegmentControllerNode.new C P).Ki_val_ = P.Ki.getD 0.0 ∧
    (MultiSegmentControllerNode.new C P).Kd_val_ = P.Kd.getD 1.0 := by
  have hv : (MultiSegmentControllerNode.new C P).max_vel_v_ = P.max_v.getD 0.8 := by
    unfold MultiSegmentControllerNode.new
    simp only [foldl_advertiseStep]
  have hw : (MultiSegmentControllerNode.new C P).max_vel_w_ = P.max_w.getD 1.0 := by
    unfold MultiSegmentControllerNode.new
    simp only [foldl_advertiseStep]
  have hg : (MultiSegmentControllerNode.new C P).goal_r_ = P.goal_radius.getD 0.2 := by
    unfold MultiSegmentControllerNode.new
    simp only [foldl_advertiseStep]
  have hkp : (MultiSegmentControllerNode.new C P).Kp_val_ = P.Kp.getD 5.0 := by
    unfold MultiSegmentControllerNode.new
    simp only [foldl_advertiseStep]
  have hki : (MultiSegmentControllerNode.new C P).Ki_val_ = P.Ki.getD 0.0 := by
    unfold MultiSegmentControllerNode.new
    simp only [foldl_advertiseStep]
  have hkd : (MultiSegmentControllerNode.new C P).Kd_val_ = P.Kd.getD 1.0 := by
    unfold MultiSegmentControllerNode.new
    simp only [foldl_advertiseStep]
  refine ⟨?_, ?_, hv, hw, hg, hkp, hki, hkd⟩
  · intro c hc
    rw [new_controller] at hc
    rw [hv, hw, hg, hkp, hki, hkd]
    exact List.eq_of_mem_replicate hc
  · rw [new_controller, List.length_replicate]

/-- Splitting on a comma, one field at a time: the characters in front of the first comma,
then the split of what follows that comma. -/
theorem splitOn_comma (s : List Char) :
    s.splitOn ',' = s.takeWhile (fun c => c != ',') ::
      (match s.dropWhile (fun c => c != ',') with
        | [] => []
        | _ :: r => r.splitOn ',') := by
  induction s with
  | nil => rfl
  | cons x xs ih =>
    unfold List.splitOn at ih ⊢
    rw [List.splitOnP_cons]
    by_cases hx : x = ','
    · subst hx
      simp
    · have h1 : (x == ',') = false := by simpa using hx
      have h2 : (x != ',') = true := by simpa using hx
      rw [ih]
      simp [h1, h2, List.takeWhile_cons, List.dropWhile_cons]


/-- The empty string has no field. -/
theorem splitFields_nil : splitFields [] = [] := by
  decide

/-- One successful `getline` reads the first field of the split: the fields of the stream
are the line read followed by the fields of the unread rest, which is shorter. -/
theorem splitFields_of_getline (s f rest : List Char) (h : getline ',' s = some (f, rest)) :
    splitFields s = f :: splitFields rest ∧ rest.length < s.length ∧
      f = s.takeWhile (fun c => c != ',') ∧ (∀ c ∈ rest, c ∈ s) := by
  cases s with
  | nil => simp [getline] at h
  | cons x xs =>
    simp only [getline, Option.some.injEq, Prod.mk.injEq] at h
    obtain ⟨hf, hrest⟩ := h
    have hsplit := splitOn_comma (x :: xs)
    have happ := List.takeWhile_append_dropWhile (fun c => c != ',') (x :: xs)
    cases hd : (x :: xs).dropWhile (fun c => c != ',') with
    | nil =>
      rw [hd] at hsplit hrest happ
      simp only [List.append_nil] at happ
      simp only [List.tail_nil] at hrest
      subst hrest
      rw [hf] at hsplit
      have hfx : f = x :: xs := by rw [← hf, happ]
      refine ⟨?_, by simp, hf.symm, by simp⟩
      simp only [splitFields, hsplit, splitFields_nil]
      rw [hfx]
      simp
    | cons d r =>
      rw [hd] at hsplit hrest happ
      simp only [List.tail_cons] at hrest
      subst hrest
      rw [hf] at hsplit happ
      have hne : r.splitOn ',' ≠ [] := List.splitOnP_ne_nil _ _
      refine ⟨?_, ?_, hf.symm, ?_⟩
      · simp only [splitFields, hsplit]
        obtain ⟨y, ys, hX⟩ := List.exists_cons_of_ne_nil hne
        rw [hX, List.getLast?_cons_cons]
        by_cases hl : (y :: ys).getLast? = some []
        · simp [hl]
        · simp [hl]
      · have hlen := congrArg List.length happ
        simp only [List.length_append, List.length_cons] at hlen
        simp only [List.length_cons]
        omega
      · intro c hc
        rw [← happ]
        simp [hc]


/-- With more fuel than characters the `getline` loop runs to the end of the stream: it
appends the fields of the stream to the names it started from. -/
theorem readNamesLoop_eq (fuel : Nat) (s : List Char) (acc : List String)
    (h : s.length < fuel) :
    readNamesLoop fuel s acc = acc ++ (splitFields s).map String.mk := by
  induction fuel generalizing s acc with
  | zero => omega
  | succ fuel ih =>
    cases hg : getline ',' s with
    | none =>
      cases s with
      | nil => simp [readNamesLoop, getline, splitFields_nil]
      | cons x xs => simp [getline] at hg
    | some fr =>
      obtain ⟨f, rest⟩ := fr
      obtain ⟨hsplit, hlen, -, -⟩ := splitFields_of_getline s f rest hg
      simp only [readNamesLoop, hg]
      rw [ih rest _ (by omega), hsplit]
      simp

/-- The names parsed by the constructor are the fields of the specification. -/
theorem parseRobotNames_eq (s : String) : parseRobotNames s = namesOfString s := by
  unfold parseRobotNames namesOfString
  simp only
  rw [readNamesLoop_eq _ _ _ (Nat.lt_succ_self _)]
  simp

/-- A field of a stream has no comma, and its characters are characters of the stream. -/
theorem mem_splitFields (n : Nat) (s : List Char) (hn : s.length < n) (f : List Char)
    (hf : f ∈ splitFields s) : ',' ∉ f ∧ ∀ c ∈ f, c ∈ s := by
  induction n generalizing s with
  | zero => omega
  | succ n ih =>
    cases hg : getline ',' s with
    | none =>
      cases s with
      | nil => simp [splitFields_nil] at hf
      | cons x xs => simp [getline] at hg
    | some fr =>
      obtain ⟨f0, rest⟩ := fr
      obtain ⟨hsplit, hlen, hf0, hrest⟩ := splitFields_of_getline s f0 rest hg
      rw [hsplit, List.mem_cons] at hf
      rcases hf with hf | hf
      · subst hf
        rw [hf0]
        constructor
        · intro hc
          have := List.mem_takeWhile_imp hc
          simp at this
        · intro c hc
          exact (List.takeWhile_sublist _).subset hc
      · obtain ⟨h1, h2⟩ := ih rest (by omega) hf
        exact ⟨h1, fun c hc => hrest c (h2 c hc)⟩

/-- No parsed robot name has a space or a comma. -/
theorem parseRobotNames_clean (s : String) (nm : String) (h : nm ∈ parseRobotNames s) :
    ' ' ∉ nm.data ∧ ',' ∉ nm.data := by
  rw [parseRobotNames_eq] at h
  unfold namesOfString at h
  rw [List.mem_map] at h
  obtain ⟨f, hf, rfl⟩ := h
  obtain ⟨h1, h2⟩ := mem_splitFields _ _ (Nat.lt_succ_self _) f hf
  refine ⟨?_, h1⟩
  intro hsp
  have := h2 _ hsp
  simp at this


/-- Splitting a string that ends in a comma gives the split of the string in front of that
comma followed by one empty field. -/
theorem splitOn_append_comma (t : List Char) :
    (t ++ [',']).splitOn ',' = t.splitOn ',' ++ [[]] := by
  induction t with
  | nil => rfl
  | cons x xs ih =>
    unfold List.splitOn at ih ⊢
    rw [List.cons_append, List.splitOnP_cons, List.splitOnP_cons, ih]
    by_cases hx : (x == ',') = true
    · simp [hx]
    · obtain ⟨y, ys, hX⟩ := List.exists_cons_of_ne_nil (List.splitOnP_ne_nil (· == ',') xs)
      simp [hx, hX, List.modifyHead]

/-- The last field of a non-empty string that does not end in a comma is not empty. -/
theorem getLast?_splitOn_ne_nil (t : List Char) (hne : t ≠ [])
    (hlast : t.getLast? ≠ some ',') : (t.splitOn ',').getLast? ≠ some [] := by
  induction t with
  | nil => exact absurd rfl hne
  | cons x xs ih =>
    unfold List.splitOn at ih ⊢
    rw [List.splitOnP_cons]
    obtain ⟨y, ys, hX⟩ := List.exists_cons_of_ne_nil (List.splitOnP_ne_nil (· == ',') xs)
    cases xs with
    | nil =>
      have hx : (x == ',') = false := by simpa using hlast
      simp [hx, List.modifyHead]
    | cons z zs =>
      have ih1 := ih (by simp) (by simpa [List.getLast?_cons_cons] using hlast)
      rw [hX] at ih1 ⊢
      by_cases hx : (x == ',') = true
      · simpa [hx, List.getLast?_cons_cons] using ih1
      · cases ys with
        | nil =>
          have hy : y ≠ [] := by simpa using ih1
          simp [hx, List.modifyHead]
        | cons y1 ys1 =>
          simpa [hx, List.modifyHead, List.getLast?_cons_cons] using ih1

/-- The fields of a string that ends in a comma are the split of the string in front of
that comma: the trailing comma adds no empty field. -/
theorem splitFields_append_comma (t : List Char) :
    splitFields (t ++ [',']) = t.splitOn ',' := by
  simp [splitFields, splitOn_append_comma]

/-- The fields of a non-empty string that does not end in a comma are its split. -/
theorem splitFields_eq_splitOn (t : List Char) (hne : t ≠ [])
    (hlast : t.getLast? ≠ some ',') : splitFields t = t.splitOn ',' := by
  simp [splitFields, getLast?_splitOn_ne_nil t hne hlast]

/-- A string other than the empty one has positive length. -/
theorem length_pos_of_ne_empty (s : String) (h : s ≠ "") : s.length > 0 := by
  cases s with
  | mk d =>
    cases d with
    | nil => exact absurd rfl h
    | cons c cs => exact Nat.succ_pos _

/-- In a wired node every subscription callback is bound to an index of the controller
list. -/
theorem wired_callback_index {σ : Type} (self : MultiSegmentControllerNode σ)
    (hw : Wired self) (sb : Subscription)
    (h : some sb ∈ self.subOdom_ ++ self.subPath_ ++ self.subCtrl_) :
    sb.callback.index < self.controller.length := by
  obtain ⟨h1, -, h3, h4, h5⟩ := hw
  rw [h1]
  rw [h3, h4, h5] at h
  simp only [List.mem_append, List.mem_map, List.mem_range, Option.some.injEq] at h
  rcases h with (⟨i, hi, rfl⟩ | ⟨i, hi, rfl⟩) | ⟨i, hi, rfl⟩ <;> exact hi

/-- C10: for a non-empty `robot_names_str` the constructor's name list is the list of the
comma-separated fields of the string without its spaces (the empty list when nothing is
left, the split of the part in front of a trailing comma, the plain split otherwise), and
no name has a space or a comma; for an empty or unset `robot_names_str` it is the
`robot_names` parameter.  The controller
list and the publisher and subscriber lists have one entry per name, the three
subscriptions of robot `i` carry the callbacks bound to `i`, and every bound index is an
index of the controller list. -/
theorem new_robot_names_parsed {σ : Type} (C : SegmentControllerOps σ) (P : Params) :
    (∀ s : String, P.robot_names_str = some s → s ≠ "" →
      (MultiSegmentControllerNode.new C P).robot_names_ = namesOfString s ∧
      (∀ nm ∈ (MultiSegmentControllerNode.new C P).robot_names_,
        ' ' ∉ nm.data ∧ ',' ∉ nm.data) ∧
      (s.data.filter (fun c => c != ' ') = [] →
        (MultiSegmentControllerNode.new C P).robot_names_ = []) ∧
      (∀ u : List Char, s.data.filter (fun c => c != ' ') = u ++ [','] →
        (MultiSegmentControllerNode.new C P).robot_names_ =
          (u.splitOn ',').map String.mk) ∧
      (s.data.filter (fun c => c != ' ') ≠ [] →
        (s.data.filter (fun c => c != ' ')).getLast? ≠ some ',' →
        (MultiSegmentControllerNode.new C P).robot_names_ =
          ((s.data.filter (fun c => c != ' ')).splitOn ',').map String.mk)) ∧
    ((P.robot_names_str = none ∨ P.robot_names_str = some "") →
      (MultiSegmentControllerNode.new C P).robot_names_ = P.robot_names.getD []) ∧
    ((MultiSegmentControllerNode.new C P).controller.length =
        (MultiSegmentControllerNode.new C P).robot_names_.length ∧
      (MultiSegmentControllerNode.new C P).pubCmdVel_.length =
        (MultiSegmentControllerNode.new C P).robot_names_.length ∧
      (MultiSegmentControllerNode.new C P).subOdom_.length =
        (MultiSegmentControllerNode.new C P).robot_names_.length ∧
      (MultiSegmentControllerNode.new C P).subPath_.length =
        (MultiSegmentControllerNode.new C P).robot_names_.length ∧
      (MultiSegmentControllerNode.new C P).subCtrl_.length =
        (MultiSegmentControllerNode.new C P).robot_names_.length) ∧
    (∀ i : Nat, i < (MultiSegmentControllerNode.new C P).robot_names_.length →
      (MultiSegmentControllerNode.new C P).subOdom_[i]? =
        some (some
          { topic := (MultiSegmentControllerNode.new C P).robot_names_.getD i "" ++ "/" ++
              (MultiSegmentControllerNode.new C P).topic_odom_,
            callback := Callback.subOdomCb i }) ∧
      (MultiSegmentControllerNode.new C P).subPath_[i]? =
        some (some
          { topic := (MultiSegmentControllerNode.new C P).robot_names_.getD i "" ++ "/" ++
              (MultiSegmentControllerNode.new C P).topic_path_,
            callback := Callback.subPathCb i }) ∧
      (MultiSegmentControllerNode.new C P).subCtrl_[i]? =
        some (some
          { topic := (MultiSegmentControllerNode.new C P).robot_names_.getD i "" ++ "/" ++
              (MultiSegmentControllerNode.new C P).topic_ctrl_,
            callback := Callback.subCtrlCb i })) ∧
    (∀ sb : Subscription,
      some sb ∈ (MultiSegmentControllerNode.new C P).subOdom_ ++
        (MultiSegmentControllerNode.new C P).subPath_ ++
        (MultiSegmentControllerNode.new C P).subCtrl_ →
      sb.callback.index < (MultiSegmentControllerNode.new C P).controller.length) := by
  have hw := new_wired C P
  refine ⟨?_, ?_, ?_, ?_, fun sb h => wired_callback_index _ hw sb h⟩
  · intro s hs hne
    have hnames : (MultiSegmentControllerNode.new C P).robot_names_ = parseRobotNames s := by
      rw [new_robot_names_, hs]
      simp [length_pos_of_ne_empty s hne]
    rw [hnames]
    refine ⟨parseRobotNames_eq s, fun nm h => parseRobotNames_clean s nm h, ?_, ?_, ?_⟩
    · intro h
      rw [parseRobotNames_eq, namesOfString, h, splitFields_nil]
      rfl
    · intro u h
      rw [parseRobotNames_eq, namesOfString, h, splitFields_append_comma]
    · intro h1 h2
      rw [parseRobotNames_eq, namesOfString, splitFields_eq_splitOn _ h1 h2]
  · intro h
    rw [new_robot_names_]
    rcases h with h | h <;> simp [h]
  · obtain ⟨h1, h2, h3, h4, h5⟩ := hw
    exact ⟨h1, by rw [h2]; simp, by rw [h3]; simp, by rw [h4]; simp, by rw [h5]; simp⟩
  · intro i hi
    obtain ⟨-, -, h3, h4, h5⟩ := hw
    refine ⟨?_, ?_, ?_⟩
    · conv_lhs => rw [h3]
      simp [hi]
    · conv_lhs => rw [h4]
      simp [hi]
    · conv_lhs => rw [h5]
      simp [hi]


/-- The witness of C10: the name strings "a, b ,c," and "   ", and an empty name string
next to a `robot_names` list. -/
theorem new_robot_names_parsed_witness :
    (MultiSegmentControllerNode.new recorder
      { robot_names_str := some "a, b ,c," }).robot_names_ = ["a", "b", "c"] ∧
    (MultiSegmentControllerNode.new recorder
      { robot_names_str := some "   " }).robot_names_ = [] ∧
    (MultiSegmentControllerNode.new recorder
      { robot_names := some ["x", "y"], robot_names_str := some "" }).robot_names_ =
        ["x", "y"] :=
  ⟨((new_robot_names_parsed recorder { robot_names_str := some "a, b ,c," }).1
      "a, b ,c," rfl (by decide)).1.trans (by decide),
    ((new_robot_names_parsed recorder { robot_names_str := some "   " }).1
      "   " rfl (by decide)).1.trans (by decide),
    ((new_robot_names_parsed recorder
      { robot_names := some ["x", "y"], robot_names_str := some "" }).2.1
      (Or.inr rfl)).trans rfl⟩

end velocity_controller
